import Mathlib

/-!
Verification development for `torchvision/ops/deform_conv.py`.

The file shallowly embeds the two Python entry points of that module:

* `deform_conv2d` — the functional wrapper that normalizes its scalar-or-pair
  arguments, substitutes a zero bias when none is given, derives the weight- and
  offset-group counts from the tensor shapes, and dispatches to the externally
  registered native primitive `torch.ops.torchvision.deform_conv2d`;
* `DeformConv2d` — the `nn.Module` wrapper holding the learnable weight and
  optional bias, with its constructor validation, parameter initialization
  (`reset_parameters`) and `forward`.

The native primitive is opaque in the source, so the embedding of a call to it
is the record of arguments passed (`NativeCall`), in the source's argument
order.  Tensors are modelled by their shape (a list of naturals) together with
a flat list of rational sample values; only shapes and the zero-bias contents
are ever inspected by the embedded code.  Python exceptions are modelled by
`Except PyErr`; a `ValueError`, `TypeError`, `IndexError` or
`ZeroDivisionError` raised mid-statement makes the embedded function return
`.error` at exactly the program point where Python would raise.
-/

instance {ε α : Type} [DecidableEq ε] [DecidableEq α] :
    DecidableEq (Except ε α) := fun a b =>
  match a, b with
  | .ok x, .ok y =>
    if h : x = y then .isTrue (by rw [h]) else .isFalse (by simp [h])
  | .error e, .error f =>
    if h : e = f then .isTrue (by rw [h]) else .isFalse (by simp [h])
  | .ok _, .error _ => .isFalse (by simp)
  | .error _, .ok _ => .isFalse (by simp)

/-- A Python exception, as far as this module can raise one. -/
inductive PyErr where
  /-- `ValueError` with its message (the constructor's divisibility checks,
  and tuple-unpacking failures). -/
  | valueError (msg : String)
  /-- `TypeError` (subscripting a non-subscriptable object, e.g. `int[0]`). -/
  | typeError
  /-- `IndexError` (list/shape index out of range). -/
  | indexError
  /-- `ZeroDivisionError` (`%` or `//` with zero right operand). -/
  | zeroDivisionError
  deriving DecidableEq, Repr

/-- A tensor, modelled by its shape and its flattened contents.  The embedded
code only ever reads shapes and builds the all-zero default bias, so rational
entries suffice. -/
structure Tensor where
  shape : List Nat
  data : List ℚ
  deriving DecidableEq, Repr

/-- `torch.zeros(n)`: a 1-D tensor of `n` zeros. -/
def Tensor.zeros (n : Nat) : Tensor :=
  { shape := [n], data := List.replicate n 0 }

/-- `torch.empty(shape)`: a freshly allocated tensor of the given shape.  Its
contents are unspecified in Python; the model fills it with zeros, and no
embedded code ever reads them. -/
def Tensor.empty (shape : List Nat) : Tensor :=
  { shape := shape, data := List.replicate shape.prod 0 }

/-- A Python argument that is either a scalar `int` or a 2-element sequence,
the domain of `torch.nn.modules.utils._pair` as used by this module. -/
inductive Pyint2 where
  | scalar (n : Nat)
  | pair (a b : Nat)
  deriving DecidableEq, Repr

/-- `_pair(x)`: broadcast a scalar to both dimensions, pass a 2-element
sequence through as its (height, width) pair. -/
def pairOf : Pyint2 → Nat × Nat
  | .scalar n => (n, n)
  | .pair a b => (a, b)

/-- Python subscription `x[i]` on a scalar-or-pair value: subscripting an
`int` raises `TypeError`; a 2-tuple yields its component at index 0 or 1 and
raises `IndexError` beyond. -/
def Pyint2.sub : Pyint2 → Nat → Except PyErr Nat
  | .scalar _, _ => .error .typeError
  | .pair a _, 0 => .ok a
  | .pair _ b, 1 => .ok b
  | .pair _ _, _ => .error .indexError

/-- `xs[-2:]` followed by unpacking into two variables: the last two elements
of the list when it has at least two, `none` (Python: `ValueError` on
unpacking) otherwise. -/
def lastTwo (xs : List Nat) : Option (Nat × Nat) :=
  match xs.reverse with
  | b :: a :: _ => some (a, b)
  | _ => none

/-- The arguments of one invocation of the opaque native primitive
`torch.ops.torchvision.deform_conv2d`, in the source's positional order. -/
structure NativeCall where
  input : Tensor
  weight : Tensor
  offset : Tensor
  bias : Tensor
  stride_h : Nat
  stride_w : Nat
  pad_h : Nat
  pad_w : Nat
  dil_h : Nat
  dil_w : Nat
  n_weight_grps : Nat
  n_offset_grps : Nat
  deriving DecidableEq, Repr

/-- The functional wrapper `deform_conv2d(input, offset, weight, bias, stride,
padding, dilation)`.  It evaluates, in source order: `weight.shape[0]`; the
zero-bias default when `bias is None`; `_pair` on stride, padding, dilation;
the unpacking `weights_h, weights_w = weight.shape[-2:]`; the unpacking
`_, n_in_channels, in_h, in_w = input.shape`; the floor divisions deriving
`n_offset_grps` and `n_weight_grps`; and finally the single dispatch to the
native primitive, returned here as the `NativeCall` argument record. -/
def deform_conv2d (input offset weight : Tensor) (bias? : Option Tensor)
    (stride padding dilation : Pyint2) : Except PyErr NativeCall :=
  match weight.shape with
  | [] => .error .indexError
  | out_channels :: wrest =>
    let bias := bias?.getD (Tensor.zeros out_channels)
    let stride_h := (pairOf stride).1
    let stride_w := (pairOf stride).2
    let pad_h := (pairOf padding).1
    let pad_w := (pairOf padding).2
    let dil_h := (pairOf dilation).1
    let dil_w := (pairOf dilation).2
    match lastTwo (out_channels :: wrest) with
    | none => .error (.valueError "not enough values to unpack")
    | some (weights_h, weights_w) =>
      match input.shape with
      | [_n_batch, n_in_channels, _in_h, _in_w] =>
        match offset.shape with
        | _ :: offset_channels :: _ =>
          if 2 * weights_h * weights_w = 0 then .error .zeroDivisionError
          else
            let n_offset_grps := offset_channels / (2 * weights_h * weights_w)
            match wrest with
            | weight_in_per_grp :: _ =>
              if weight_in_per_grp = 0 then .error .zeroDivisionError
              else
                .ok { input := input, weight := weight, offset := offset,
                      bias := bias,
                      stride_h := stride_h, stride_w := stride_w,
                      pad_h := pad_h, pad_w := pad_w,
                      dil_h := dil_h, dil_w := dil_w,
                      n_weight_grps := n_in_channels / weight_in_per_grp,
                      n_offset_grps := n_offset_grps }
            | _ => .error .indexError
        | _ => .error .indexError
      | _ => .error (.valueError "not enough values to unpack")

/-- The state of a constructed `DeformConv2d` module: the fields its
constructor assigns.  `bias` is `none` when the module was built with
`bias=False` (Python: `self.register_parameter('bias', None)`). -/
structure DeformConv2d where
  in_channels : Nat
  out_channels : Nat
  kernel_size : Nat × Nat
  stride : Nat × Nat
  padding : Nat × Nat
  dilation : Nat × Nat
  groups : Nat
  offset_groups : Nat
  weight : Tensor
  bias : Option Tensor
  deriving DecidableEq, Repr

/-- `DeformConv2d.__init__`.  In source order: the three divisibility checks
(each a Python `%`, hence `ZeroDivisionError` on a zero divisor and
`ValueError` on a failed check); the field assignments with `_pair`
normalization; the weight allocation — which subscripts the RAW
`kernel_size` argument (`kernel_size[0]`, `kernel_size[1]`), not the
normalized `self.kernel_size`; and the optional bias allocation.  An `.error`
result means the constructor raised before the module (and hence any later
parameter) existed. -/
def DeformConv2d.mk? (in_channels out_channels : Nat)
    (kernel_size stride padding dilation : Pyint2)
    (groups offset_groups : Nat) (bias : Bool) :
    Except PyErr DeformConv2d :=
  if groups = 0 then .error .zeroDivisionError
  else if in_channels % groups ≠ 0 then
    .error (.valueError "in_channels must be divisible by groups")
  else if offset_groups = 0 then .error .zeroDivisionError
  else if in_channels % offset_groups ≠ 0 then
    .error (.valueError "in_channels must be divisible by offset_groups")
  else if out_channels % groups ≠ 0 then
    .error (.valueError "out_channels must be divisible by groups")
  else
    match kernel_size.sub 0, kernel_size.sub 1 with
    | .error e, _ => .error e
    | .ok _, .error e => .error e
    | .ok k0, .ok k1 =>
    .ok { in_channels := in_channels, out_channels := out_channels,
          kernel_size := pairOf kernel_size,
          stride := pairOf stride,
          padding := pairOf padding,
          dilation := pairOf dilation,
          groups := groups, offset_groups := offset_groups,
          weight := Tensor.empty [out_channels, in_channels / groups, k0, k1],
          bias := if bias then some (Tensor.empty [out_channels]) else none }

/-- `DeformConv2d.forward(input, offset)`: a single return statement
delegating to `deform_conv2d` with the held weight and bias and the module's
normalized stride/padding/dilation pairs.  The embedding threads the module
state explicitly; the body assigns no attribute, so the returned state is the
received one. -/
def DeformConv2d.forward (m : DeformConv2d) (input offset : Tensor) :
    Except PyErr NativeCall × DeformConv2d :=
  (deform_conv2d input offset m.weight m.bias
    (.pair m.stride.1 m.stride.2)
    (.pair m.padding.1 m.padding.2)
    (.pair m.dilation.1 m.dilation.2), m)

/-- `torch.nn.init._calculate_fan_in_and_fan_out`'s fan-in for a tensor of
the given shape: `shape[1]` input feature maps times the receptive field size
`prod(shape[2:])`. -/
def fan_in (shape : List Nat) : Nat :=
  shape.getD 1 0 * (shape.drop 2).prod

/-- One sample of `init.uniform_(t, lo, hi)`: the uniform law on `[lo, hi]`
realized as `lo + r * (hi - lo)` for a source value `r` drawn from `[0, 1]`. -/
noncomputable def uniformSample (lo hi r : ℝ) : ℝ :=
  lo + r * (hi - lo)

/-- The bias contents written by `DeformConv2d.reset_parameters` for a module
whose weight has shape `weightShape` and whose bias holds `n` elements, given
the stream `rs` of `[0,1]`-valued draws of the random source: each element is
a uniform sample on `[-bound, bound]` with `bound = 1 / sqrt(fan_in)`. -/
noncomputable def resetBiasValues (weightShape : List Nat) (n : Nat)
    (rs : List ℝ) : List ℝ :=
  (rs.take n).map
    (uniformSample (-(1 / Real.sqrt (fan_in weightShape)))
      (1 / Real.sqrt (fan_in weightShape)))

/-- `DeformConv2d.reset_parameters`, restricted to its effect on the bias:
`if self.bias is not None`, refill the bias from the uniform law bounded by
`1 / sqrt(fan_in(weight))`; otherwise leave it absent.  (The kaiming-uniform
refill of the weight touches no state the claims inspect.) -/
noncomputable def DeformConv2d.resetBias? (m : DeformConv2d) (rs : List ℝ) :
    Option (List ℝ) :=
  m.bias.map fun bt => resetBiasValues m.weight.shape bt.shape.prod rs

/-- A concrete weight tensor: shape `(2, 2, 3, 3)`. -/
def sampleWeight : Tensor := Tensor.empty [2, 2, 3, 3]

/-- The module built by
`DeformConv2d(2, 2, kernel_size=(3, 3), stride=2, padding=1, dilation=1)`. -/
def sampleModule : DeformConv2d :=
  { in_channels := 2, out_channels := 2, kernel_size := (3, 3),
    stride := (2, 2), padding := (1, 1), dilation := (1, 1),
    groups := 1, offset_groups := 1,
    weight := sampleWeight, bias := some (Tensor.empty [2]) }

/-- The same module built with `bias=False`. -/
def noBiasModule : DeformConv2d :=
  { sampleModule with bias := none }

/-- The native-call record dispatched by `sampleModule.forward` on a
`(1, 2, 5, 5)` input and a `(1, 18, 3, 3)` offset tensor. -/
def sampleCall : NativeCall :=
  { input := Tensor.empty [1, 2, 5, 5], weight := sampleWeight,
    offset := Tensor.empty [1, 18, 3, 3], bias := Tensor.zeros 2,
    stride_h := 2, stride_w := 2, pad_h := 1, pad_w := 1,
    dil_h := 1, dil_w := 1, n_weight_grps := 1, n_offset_grps := 1 }

/-- The native-call record for the spec's representative grouped shapes:
`in_channels=4, groups=2, offset_groups=1`, `3 × 3` kernel, default
stride/padding/dilation. -/
def groupedCall : NativeCall :=
  { input := Tensor.empty [1, 4, 5, 5], weight := Tensor.empty [4, 2, 3, 3],
    offset := Tensor.empty [1, 18, 3, 3], bias := Tensor.zeros 4,
    stride_h := 1, stride_w := 1, pad_h := 0, pad_w := 0,
    dil_h := 1, dil_w := 1, n_weight_grps := 2, n_offset_grps := 1 }

/-! ## Inversion lemmas -/

/-- Inversion of a successful construction: the constructor subscripted the
raw `kernel_size` at 0 and 1 successfully, and the module is exactly the
record the constructor assigns. -/
theorem DeformConv2d.mk?_ok_inv {ic oc : Nat} {ks st pd dl : Pyint2}
    {g og : Nat} {b : Bool} {m : DeformConv2d}
    (hm : DeformConv2d.mk? ic oc ks st pd dl g og b = .ok m) :
    ∃ k0 k1, ks.sub 0 = .ok k0 ∧ ks.sub 1 = .ok k1 ∧
      m = { in_channels := ic, out_channels := oc,
            kernel_size := pairOf ks, stride := pairOf st,
            padding := pairOf pd, dilation := pairOf dl,
            groups := g, offset_groups := og,
            weight := Tensor.empty [oc, ic / g, k0, k1],
            bias := if b then some (Tensor.empty [oc]) else none } := by
  unfold DeformConv2d.mk? at hm
  split_ifs at hm with h1 h2 h3 h4 h5 hb
  · split at hm
    · exact absurd hm (by simp)
    · exact absurd hm (by simp)
    next k0 k1 hk0 hk1 =>
      refine ⟨k0, k1, hk0, hk1, ?_⟩
      rw [if_pos hb]
      exact (Except.ok.inj hm).symm
  · split at hm
    · exact absurd hm (by simp)
    · exact absurd hm (by simp)
    next k0 k1 hk0 hk1 =>
      refine ⟨k0, k1, hk0, hk1, ?_⟩
      rw [if_neg hb]
      exact (Except.ok.inj hm).symm

/-- Inversion of a successful `deform_conv2d`: each field of the dispatched
native call, expressed from the wrapper's arguments. -/
theorem deform_conv2d_ok_inv {input offset weight : Tensor}
    {bias? : Option Tensor} {stride padding dilation : Pyint2}
    {c : NativeCall}
    (hc : deform_conv2d input offset weight bias? stride padding dilation
      = .ok c) :
    c.input = input ∧ c.weight = weight ∧ c.offset = offset ∧
    c.bias = bias?.getD (Tensor.zeros (weight.shape.headD 0)) ∧
    (c.stride_h, c.stride_w) = pairOf stride ∧
    (c.pad_h, c.pad_w) = pairOf padding ∧
    (c.dil_h, c.dil_w) = pairOf dilation := by
  unfold deform_conv2d at hc
  split at hc
  · exact absurd hc (by simp)
  next oc wrest hws =>
    split at hc
    · exact absurd hc (by simp)
    next wh ww hlt =>
      split at hc
      next nb nic ih iw =>
        split at hc
        next o1 offc orest =>
          split_ifs at hc
          split at hc
          next w1 wrest2 =>
            split_ifs at hc
            injection hc with hc
            subst hc
            refine ⟨rfl, rfl, rfl, ?_, rfl, rfl, rfl⟩
            simp [hws]
          · exact absurd hc (by simp)
        · exact absurd hc (by simp)
      · exact absurd hc (by simp)

/-! ## Claim theorems -/

/-- C1: the claim says construction succeeds for every `kernel_size` accepted
by the documented scalar-or-pair contract whenever the three divisibility
conditions hold.  The code violates this for a scalar `kernel_size`: with
`in_channels = out_channels = 2`, `groups = offset_groups = 1` (all
divisibility conditions hold) and scalar `kernel_size = 3`, the constructor
raises `TypeError`, because the weight allocation subscripts the raw
`kernel_size` argument instead of the normalized `self.kernel_size`. -/
theorem c1_scalar_kernel_size_construction_raises :
    (1 ∣ 2) ∧ (1 ∣ 2) ∧ (1 ∣ 2) ∧
    DeformConv2d.mk? 2 2 (.scalar 3) (.scalar 1) (.scalar 0) (.scalar 1)
      1 1 true = .error .typeError := by decide

/-- C2: whenever `in_channels` is not divisible by `groups`, or `in_channels`
is not divisible by `offset_groups`, or `out_channels` is not divisible by
`groups` (group counts positive), construction returns a `ValueError`; the
`.error` result is produced by the checks at the top of the constructor, so
no module — and hence no weight or bias parameter — is ever allocated. -/
theorem c2_bad_divisibility_raises_valueError
    (ic oc g og : Nat) (ks st pd dl : Pyint2) (b : Bool)
    (hg : 0 < g) (hog : 0 < og)
    (hbad : ¬ g ∣ ic ∨ ¬ og ∣ ic ∨ ¬ g ∣ oc) :
    ∃ msg, DeformConv2d.mk? ic oc ks st pd dl g og b
      = .error (.valueError msg) := by
  have hg0 : g ≠ 0 := hg.ne'
  have hog0 : og ≠ 0 := hog.ne'
  by_cases h1 : ic % g = 0
  · by_cases h2 : ic % og = 0
    · have h3 : oc % g ≠ 0 := by
        rcases hbad with h | h | h
        · exact absurd (Nat.dvd_of_mod_eq_zero h1) h
        · exact absurd (Nat.dvd_of_mod_eq_zero h2) h
        · exact fun hmod => h (Nat.dvd_of_mod_eq_zero hmod)
      exact ⟨"out_channels must be divisible by groups",
        by simp [DeformConv2d.mk?, hg0, hog0, h1, h2, h3]⟩
    · exact ⟨"in_channels must be divisible by offset_groups",
        by simp [DeformConv2d.mk?, hg0, hog0, h1, h2]⟩
  · exact ⟨"in_channels must be divisible by groups",
      by simp [DeformConv2d.mk?, hg0, h1]⟩

/-- Witness for C2 at `in_channels = 3, out_channels = 4, groups = 2,
offset_groups = 1`: `2` does not divide `3`, and construction returns a
`ValueError`. -/
theorem c2_bad_divisibility_raises_valueError_witness :
    (0 < 2 ∧ 0 < 1 ∧ (¬ (2 : Nat) ∣ 3 ∨ ¬ (1 : Nat) ∣ 3 ∨ ¬ (2 : Nat) ∣ 4)) ∧
    ∃ msg, DeformConv2d.mk? 3 4 (.pair 3 3) (.scalar 1) (.scalar 0)
      (.scalar 1) 2 1 true = .error (.valueError msg) :=
  ⟨by decide,
    c2_bad_divisibility_raises_valueError 3 4 2 1 (.pair 3 3) (.scalar 1)
      (.scalar 0) (.scalar 1) true (by decide) (by decide) (by decide)⟩

/-- C9: with every divisibility precondition satisfied (positive group
counts), constructing with a scalar `kernel_size` still fails with
`TypeError`: the weight allocation subscripts the raw `kernel_size` argument
(`kernel_size[0]`), and subscripting a Python `int` raises `TypeError`. -/
theorem c9_scalar_kernel_size_raises_typeError
    (ic oc s : Nat) (st pd dl : Pyint2) (g og : Nat) (b : Bool)
    (hg : 0 < g) (hog : 0 < og)
    (h1 : g ∣ ic) (h2 : og ∣ ic) (h3 : g ∣ oc) :
    DeformConv2d.mk? ic oc (.scalar s) st pd dl g og b
      = .error .typeError := by
  have m1 : ic % g = 0 := Nat.mod_eq_zero_of_dvd h1
  have m2 : ic % og = 0 := Nat.mod_eq_zero_of_dvd h2
  have m3 : oc % g = 0 := Nat.mod_eq_zero_of_dvd h3
  simp [DeformConv2d.mk?, hg.ne', hog.ne', m1, m2, m3, Pyint2.sub]

/-- Witness for C9 at `in_channels = 4, out_channels = 6, groups = 2,
offset_groups = 2`, scalar `kernel_size = 5`. -/
theorem c9_scalar_kernel_size_raises_typeError_witness :
    (0 < 2 ∧ 0 < 2 ∧ (2 : Nat) ∣ 4 ∧ (2 : Nat) ∣ 4 ∧ (2 : Nat) ∣ 6) ∧
    DeformConv2d.mk? 4 6 (.scalar 5) (.scalar 1) (.scalar 0) (.scalar 1)
      2 2 true = .error .typeError :=
  ⟨by decide,
    c9_scalar_kernel_size_raises_typeError 4 6 5 (.scalar 1) (.scalar 0)
      (.scalar 1) 2 2 true (by decide) (by decide) (by decide) (by decide)
      (by decide)⟩

/-- When the three tensors have 4-dimensional shapes with a nonzero kernel
area and a nonzero per-group weight channel count, `deform_conv2d` succeeds
and dispatches exactly the record below. -/
theorem deform_conv2d_ok_of_shapes
    (input offset weight : Tensor) (bias? : Option Tensor)
    (st pd dl : Pyint2) (nb ic ih iw oc w1 kh kw bo co oh ow : Nat)
    (hin : input.shape = [nb, ic, ih, iw])
    (hw : weight.shape = [oc, w1, kh, kw])
    (hoff : offset.shape = [bo, co, oh, ow])
    (hk : 2 * kh * kw ≠ 0) (hw1 : w1 ≠ 0) :
    deform_conv2d input offset weight bias? st pd dl =
      .ok { input := input, weight := weight, offset := offset,
            bias := bias?.getD (Tensor.zeros oc),
            stride_h := (pairOf st).1, stride_w := (pairOf st).2,
            pad_h := (pairOf pd).1, pad_w := (pairOf pd).2,
            dil_h := (pairOf dl).1, dil_w := (pairOf dl).2,
            n_weight_grps := ic / w1,
            n_offset_grps := co / (2 * kh * kw) } := by
  unfold deform_conv2d
  rw [hw, hin, hoff]
  simp [lastTwo, hk, hw1]

/-- C3: `_pair` broadcasts a scalar `s` to `(s, s)` and passes a 2-element
sequence through as its (height, width) pair; a successfully constructed
`DeformConv2d` stores `self.kernel_size`, `self.stride`, `self.padding`,
`self.dilation` as these normalized pairs, and `deform_conv2d` normalizes its
`stride`, `padding`, `dilation` arguments the same way into the dispatched
native call. -/
theorem c3_scalar_or_pair_normalization
    (s a b ic oc : Nat) (ks st pd dl : Pyint2) (g og : Nat) (bias : Bool)
    (input offset weight : Tensor) (bias? : Option Tensor)
    (m : DeformConv2d) (c : NativeCall)
    (hm : DeformConv2d.mk? ic oc ks st pd dl g og bias = .ok m)
    (hc : deform_conv2d input offset weight bias? st pd dl = .ok c) :
    pairOf (.scalar s) = (s, s) ∧
    pairOf (.pair a b) = (a, b) ∧
    m.kernel_size = pairOf ks ∧ m.stride = pairOf st ∧
    m.padding = pairOf pd ∧ m.dilation = pairOf dl ∧
    (c.stride_h, c.stride_w) = pairOf st ∧
    (c.pad_h, c.pad_w) = pairOf pd ∧
    (c.dil_h, c.dil_w) = pairOf dl := by
  obtain ⟨k0, k1, hk0, hk1, hmrec⟩ := DeformConv2d.mk?_ok_inv hm
  obtain ⟨-, -, -, -, hs, hp, hd⟩ := deform_conv2d_ok_inv hc
  subst hmrec
  exact ⟨rfl, rfl, rfl, rfl, rfl, rfl, hs, hp, hd⟩

/-- Witness for C3 on the sample module (scalar stride 2, scalar padding 1,
scalar dilation 1, pair kernel size) and a concrete successful call. -/
theorem c3_scalar_or_pair_normalization_witness :
    pairOf (.scalar 7) = (7, 7) ∧
    pairOf (.pair 4 9) = (4, 9) ∧
    sampleModule.kernel_size = pairOf (.pair 3 3) ∧
    sampleModule.stride = pairOf (.scalar 2) ∧
    sampleModule.padding = pairOf (.scalar 1) ∧
    sampleModule.dilation = pairOf (.scalar 1) ∧
    (sampleCall.stride_h, sampleCall.stride_w) = pairOf (.scalar 2) ∧
    (sampleCall.pad_h, sampleCall.pad_w) = pairOf (.scalar 1) ∧
    (sampleCall.dil_h, sampleCall.dil_w) = pairOf (.scalar 1) :=
  c3_scalar_or_pair_normalization 7 4 9 2 2 (.pair 3 3) (.scalar 2)
    (.scalar 1) (.scalar 1) 1 1 true (Tensor.empty [1, 2, 5, 5])
    (Tensor.empty [1, 18, 3, 3]) sampleWeight none sampleModule sampleCall
    (by decide) (by decide)

/-- C4: when the offset tensor carries exactly `2 * offset_groups * kh * kw`
channels and the weight's second dimension is `in_channels / groups`, the
group counts `deform_conv2d` derives by floor division from the shapes are
the constructed `groups` and `offset_groups`. -/
theorem c4_derived_group_counts_match
    (input offset weight : Tensor) (bias? : Option Tensor)
    (st pd dl : Pyint2) (c : NativeCall)
    (nb ih iw bo oh ow ic oc g og kh kw : Nat)
    (hin : input.shape = [nb, ic, ih, iw])
    (hoff : offset.shape = [bo, 2 * og * kh * kw, oh, ow])
    (hw : weight.shape = [oc, ic / g, kh, kw])
    (hdvd : g ∣ ic) (hic : 0 < ic) (hkh : 0 < kh) (hkw : 0 < kw)
    (hc : deform_conv2d input offset weight bias? st pd dl = .ok c) :
    c.n_weight_grps = g ∧ c.n_offset_grps = og := by
  have hg : 0 < g := Nat.pos_of_dvd_of_pos hdvd hic
  have hk : 2 * kh * kw ≠ 0 := by positivity
  have hw1 : ic / g ≠ 0 := (Nat.div_pos (Nat.le_of_dvd hic hdvd) hg).ne'
  rw [deform_conv2d_ok_of_shapes input offset weight bias? st pd dl
    nb ic ih iw oc (ic / g) kh kw bo (2 * og * kh * kw) oh ow
    hin hw hoff hk hw1] at hc
  injection hc with hc
  subst hc
  constructor
  · exact Nat.div_div_self hdvd hic.ne'
  · show 2 * og * kh * kw / (2 * kh * kw) = og
    rw [show 2 * og * kh * kw = og * (2 * kh * kw) by ring]
    exact Nat.mul_div_cancel og (Nat.pos_of_ne_zero hk)

/-- Witness for C4 at the spec's representative shapes: `in_channels = 4`,
`groups = 2`, `offset_groups = 1`, kernel `3 × 3`, offset channel count 18. -/
theorem c4_derived_group_counts_match_witness :
    groupedCall.n_weight_grps = 2 ∧ groupedCall.n_offset_grps = 1 :=
  c4_derived_group_counts_match (Tensor.empty [1, 4, 5, 5])
    (Tensor.empty [1, 18, 3, 3]) (Tensor.empty [4, 2, 3, 3]) none
    (.scalar 1) (.scalar 0) (.scalar 1) groupedCall
    1 5 5 1 3 3 4 4 2 1 3 3
    rfl (by decide) (by decide) (by decide) (by decide) (by decide)
    (by decide) (by decide)

/-- C5: with `bias` omitted, the dispatched native call carries a bias vector
of length `out_channels = weight.shape[0]` whose entries are all zero; a
module constructed with `bias=False` holds no bias parameter and forwards
with the same zero bias vector. -/
theorem c5_omitted_bias_is_zero_vector
    (input offset weight input2 offset2 : Tensor)
    (st pd dl ks st2 pd2 dl2 : Pyint2) (ic oc g og : Nat)
    (c c2 : NativeCall) (m : DeformConv2d) (oc1 : Nat) (wrest : List Nat)
    (hw : weight.shape = oc1 :: wrest)
    (hc : deform_conv2d input offset weight none st pd dl = .ok c)
    (hm : DeformConv2d.mk? ic oc ks st2 pd2 dl2 g og false = .ok m)
    (hc2 : (m.forward input2 offset2).1 = .ok c2) :
    (c.bias.shape = [oc1] ∧ c.bias.data = List.replicate oc1 0) ∧
    m.bias = none ∧
    (c2.bias.shape = [oc] ∧ c2.bias.data = List.replicate oc 0) := by
  obtain ⟨-, -, -, hb, -, -, -⟩ := deform_conv2d_ok_inv hc
  obtain ⟨k0, k1, hk0, hk1, hmrec⟩ := DeformConv2d.mk?_ok_inv hm
  have hbias : m.bias = none := by rw [hmrec]; rfl
  have hwshape : m.weight.shape = [oc, ic / g, k0, k1] := by
    rw [hmrec]; rfl
  have hc2' : deform_conv2d input2 offset2 m.weight m.bias
      (.pair m.stride.1 m.stride.2) (.pair m.padding.1 m.padding.2)
      (.pair m.dilation.1 m.dilation.2) = .ok c2 := hc2
  obtain ⟨-, -, -, hb2, -, -, -⟩ := deform_conv2d_ok_inv hc2'
  rw [hbias] at hb2
  refine ⟨?_, hbias, ?_⟩
  · rw [hb, hw]
    exact ⟨rfl, rfl⟩
  · rw [hb2, hwshape]
    exact ⟨rfl, rfl⟩

/-- Witness for C5: a direct call with `bias=None` and a `bias=False` module,
both dispatching the zero bias vector of length 2. -/
theorem c5_omitted_bias_is_zero_vector_witness :
    (sampleCall.bias.shape = [2] ∧
      sampleCall.bias.data = List.replicate 2 0) ∧
    noBiasModule.bias = none ∧
    (sampleCall.bias.shape = [2] ∧
      sampleCall.bias.data = List.replicate 2 0) :=
  c5_omitted_bias_is_zero_vector (Tensor.empty [1, 2, 5, 5])
    (Tensor.empty [1, 18, 3, 3]) sampleWeight (Tensor.empty [1, 2, 5, 5])
    (Tensor.empty [1, 18, 3, 3]) (.scalar 2) (.scalar 1) (.scalar 1)
    (.pair 3 3) (.scalar 2) (.scalar 1) (.scalar 1) 2 2 1 1
    sampleCall sampleCall noBiasModule 2 [2, 3, 3]
    (by decide) (by decide) (by decide) (by decide)

/-- C6: `forward` dispatches to the native primitive exactly once (the
embedding of a `forward` invocation is the single `NativeCall` record below),
with the module's held weight and bias, the caller's input and offset, and
the module's normalized stride/padding/dilation pairs, in the source's fixed
argument order. -/
theorem c6_forward_dispatch_fields
    (ic oc : Nat) (ks st pd dl : Pyint2) (g og : Nat) (b : Bool)
    (m : DeformConv2d) (input offset : Tensor) (c : NativeCall)
    (hm : DeformConv2d.mk? ic oc ks st pd dl g og b = .ok m)
    (hc : (m.forward input offset).1 = .ok c) :
    c.input = input ∧ c.weight = m.weight ∧ c.offset = offset ∧
    c.bias = m.bias.getD (Tensor.zeros m.out_channels) ∧
    (c.stride_h, c.stride_w) = (m.stride.1, m.stride.2) ∧
    (c.pad_h, c.pad_w) = (m.padding.1, m.padding.2) ∧
    (c.dil_h, c.dil_w) = (m.dilation.1, m.dilation.2) := by
  obtain ⟨k0, k1, hk0, hk1, hmrec⟩ := DeformConv2d.mk?_ok_inv hm
  have hc' : deform_conv2d input offset m.weight m.bias
      (.pair m.stride.1 m.stride.2) (.pair m.padding.1 m.padding.2)
      (.pair m.dilation.1 m.dilation.2) = .ok c := hc
  obtain ⟨h1, h2, h3, h4, h5, h6, h7⟩ := deform_conv2d_ok_inv hc'
  have hhead : m.weight.shape.headD 0 = m.out_channels := by
    rw [hmrec]; rfl
  rw [hhead] at h4
  exact ⟨h1, h2, h3, h4, h5, h6, h7⟩

/-- Witness for C6 on the sample module and concrete input/offset tensors. -/
theorem c6_forward_dispatch_fields_witness :
    sampleCall.input = Tensor.empty [1, 2, 5, 5] ∧
    sampleCall.weight = sampleModule.weight ∧
    sampleCall.offset = Tensor.empty [1, 18, 3, 3] ∧
    sampleCall.bias
      = sampleModule.bias.getD (Tensor.zeros sampleModule.out_channels) ∧
    (sampleCall.stride_h, sampleCall.stride_w)
      = (sampleModule.stride.1, sampleModule.stride.2) ∧
    (sampleCall.pad_h, sampleCall.pad_w)
      = (sampleModule.padding.1, sampleModule.padding.2) ∧
    (sampleCall.dil_h, sampleCall.dil_w)
      = (sampleModule.dilation.1, sampleModule.dilation.2) :=
  c6_forward_dispatch_fields 2 2 (.pair 3 3) (.scalar 2) (.scalar 1)
    (.scalar 1) 1 1 true sampleModule (Tensor.empty [1, 2, 5, 5])
    (Tensor.empty [1, 18, 3, 3]) sampleCall (by decide) (by decide)

/-- C7: after `reset_parameters`, every bias element produced by the uniform
fill lies in `[-1/sqrt(fan_in), 1/sqrt(fan_in)]` for any realization of the
`[0,1]`-valued random source, where `fan_in` is computed from the weight
tensor's shape as `(in_channels / groups) * kernel_h * kernel_w`. -/
theorem c7_reset_bias_within_bound
    (ic oc kh kw : Nat) (st pd dl : Pyint2) (g og : Nat) (b : Bool)
    (m : DeformConv2d) (rs xs : List ℝ)
    (hm : DeformConv2d.mk? ic oc (.pair kh kw) st pd dl g og b = .ok m)
    (hrs : ∀ r ∈ rs, 0 ≤ r ∧ r ≤ 1)
    (hx : m.resetBias? rs = some xs) :
    fan_in m.weight.shape = ic / g * (kh * kw) ∧
    ∀ x ∈ xs, -(1 / Real.sqrt (fan_in m.weight.shape)) ≤ x ∧
      x ≤ 1 / Real.sqrt (fan_in m.weight.shape) := by
  obtain ⟨k0, k1, hk0, hk1, hmrec⟩ := DeformConv2d.mk?_ok_inv hm
  have hk0' : kh = k0 := Except.ok.inj hk0
  have hk1' : kw = k1 := Except.ok.inj hk1
  rw [← hk0', ← hk1'] at hmrec
  have hfi : fan_in m.weight.shape = ic / g * (kh * kw) := by
    rw [hmrec]
    simp [fan_in, Tensor.empty]
  refine ⟨hfi, ?_⟩
  intro x hxmem
  have hb0 : (0 : ℝ) ≤ 1 / Real.sqrt (fan_in m.weight.shape) := by
    have := Real.sqrt_nonneg ((fan_in m.weight.shape : ℕ) : ℝ)
    positivity
  unfold DeformConv2d.resetBias? at hx
  cases hbm : m.bias with
  | none => rw [hbm] at hx; exact absurd hx (by simp)
  | some bt =>
    rw [hbm] at hx
    simp only [Option.map_some'] at hx
    obtain rfl : resetBiasValues m.weight.shape bt.shape.prod rs = xs :=
      Option.some.inj hx
    obtain ⟨r, hrtake, rfl⟩ := List.mem_map.mp hxmem
    obtain ⟨hr0, hr1⟩ := hrs r (List.mem_of_mem_take hrtake)
    unfold uniformSample
    constructor <;> nlinarith [mul_nonneg hr0 hb0, mul_nonneg hr0 hr0,
      mul_nonneg (sub_nonneg.mpr hr1) (mul_nonneg hb0 hb0),
      mul_nonneg (sub_nonneg.mpr hr1) hb0]

/-- Witness for C7 on the sample module with random draws `0, 1/2, 1`. -/
theorem c7_reset_bias_within_bound_witness :
    fan_in sampleModule.weight.shape = 2 / 1 * (3 * 3) ∧
    ∀ x ∈ resetBiasValues sampleModule.weight.shape
        (Tensor.empty [2]).shape.prod [(0 : ℝ), 1/2, 1],
      -(1 / Real.sqrt (fan_in sampleModule.weight.shape)) ≤ x ∧
        x ≤ 1 / Real.sqrt (fan_in sampleModule.weight.shape) :=
  c7_reset_bias_within_bound 2 2 3 3 (.scalar 2) (.scalar 1) (.scalar 1)
    1 1 true sampleModule [0, 1/2, 1]
    (resetBiasValues sampleModule.weight.shape
      (Tensor.empty [2]).shape.prod [(0 : ℝ), 1/2, 1])
    (by decide)
    (by
      intro r hr
      simp only [List.mem_cons, List.not_mem_nil, or_false] at hr
      rcases hr with rfl | rfl | rfl <;> norm_num)
    rfl

/-- C8: `forward` mutates no module state: the threaded module state after a
call is the one before it, field by field (weight, bias, and all stored
configuration fields). -/
theorem c8_forward_preserves_module_state
    (m : DeformConv2d) (input offset : Tensor) :
    (m.forward input offset).2 = m ∧
    (m.forward input offset).2.weight = m.weight ∧
    (m.forward input offset).2.bias = m.bias ∧
    (m.forward input offset).2.in_channels = m.in_channels ∧
    (m.forward input offset).2.out_channels = m.out_channels ∧
    (m.forward input offset).2.kernel_size = m.kernel_size ∧
    (m.forward input offset).2.stride = m.stride ∧
    (m.forward input offset).2.padding = m.padding ∧
    (m.forward input offset).2.dilation = m.dilation ∧
    (m.forward input offset).2.groups = m.groups ∧
    (m.forward input offset).2.offset_groups = m.offset_groups :=
  ⟨rfl, rfl, rfl, rfl, rfl, rfl, rfl, rfl, rfl, rfl, rfl⟩

/-- C10: `deform_conv2d` does not reject an offset tensor whose channel count
is not a multiple of `2 * kernel_h * kernel_w`: it still succeeds, silently
flooring the derived offset-group count by integer division and passing it to
the native primitive. -/
theorem c10_nondivisible_offset_channels_floored
    (input offset weight : Tensor) (bias? : Option Tensor)
    (st pd dl : Pyint2) (nb ic ih iw oc w1 kh kw bo co oh ow : Nat)
    (hin : input.shape = [nb, ic, ih, iw])
    (hw : weight.shape = [oc, w1, kh, kw])
    (hoff : offset.shape = [bo, co, oh, ow])
    (hkh : 0 < kh) (hkw : 0 < kw) (hw1 : 0 < w1)
    (_hnd : ¬ 2 * kh * kw ∣ co) :
    ∃ c, deform_conv2d input offset weight bias? st pd dl = .ok c ∧
      c.n_offset_grps = co / (2 * kh * kw) := by
  have hk : 2 * kh * kw ≠ 0 := by positivity
  exact ⟨_, deform_conv2d_ok_of_shapes input offset weight bias? st pd dl
    nb ic ih iw oc w1 kh kw bo co oh ow hin hw hoff hk hw1.ne', rfl⟩

/-- Witness for C10: a `3 × 3` kernel (tap count 18) with 19 offset channels;
the call succeeds and the derived offset-group count is floored to 1. -/
theorem c10_nondivisible_offset_channels_floored_witness :
    (0 < 3 ∧ 0 < 3 ∧ 0 < 2 ∧ ¬ 2 * 3 * 3 ∣ 19) ∧
    ∃ c, deform_conv2d (Tensor.empty [1, 2, 4, 4])
        (Tensor.empty [1, 19, 3, 3]) (Tensor.empty [3, 2, 3, 3]) none
        (.scalar 1) (.scalar 0) (.scalar 1) = .ok c ∧
      c.n_offset_grps = 19 / (2 * 3 * 3) :=
  ⟨by decide,
    c10_nondivisible_offset_channels_floored (Tensor.empty [1, 2, 4, 4])
      (Tensor.empty [1, 19, 3, 3]) (Tensor.empty [3, 2, 3, 3]) none
      (.scalar 1) (.scalar 0) (.scalar 1) 1 2 4 4 3 2 3 3 1 19 3 3
      rfl rfl rfl (by decide) (by decide) (by decide) (by decide)⟩
